import Mathlib

/-!
Shallow embedding of the polling-and-state-transition core of the
self-hosted-health-dashboard repository (package `internal/monitor`:
checker.go, store.go, alerter.go), together with theorems settling the
frozen claims about it.

Conventions of the embedding:
* Go `int` fields (status codes, consecutive failures, millisecond
  durations) are modelled as `Int`.  Overflow is not modelled: the only
  arithmetic is `consecutiveFailures + 1`, a counter that starts at 0 and
  grows by at most one per probe tick, so 64-bit wraparound is unreachable
  in any execution of the program.
* Fallible collaborator calls (building the HTTP request, `client.Do`,
  `Store.RecordCheck`, `Store.Get`, `Store.UpdateState`, `client.Post`)
  are driven by an explicit environment record describing the outcome the
  outside world produced for that call.
* Each worker tick returns, besides the updated store contents, the list
  of collaborator operations it performed, in program order.  A
  `Store.UpdateState` operation carries the (state, failures) pair as one
  value: the source issues the two fields in a single SQL UPDATE.
-/

namespace HealthDashboard

/-- Threshold constant from checker.go: number of consecutive failures
before a monitor flips to the "down" state (`failureThreshold = 3`). -/
def failureThreshold : Int := 3

/-- Mutable per-monitor row as read and written by the checker: the
`state` and `consecutive_failures` columns of the monitors table
(fields `State` and `ConsecutiveFailures` of `Monitor` in store.go).
The remaining columns (name, url, interval, timestamps) play no role in
the state-transition logic and are omitted. -/
structure Monitor where
  state : String
  consecutiveFailures : Int
deriving DecidableEq, Repr

/-- Probe result record from store.go (`Check`): optional status code,
optional response time in milliseconds, and the is-up classification. -/
structure Check where
  monitorID : Int
  statusCode : Option Int
  responseTimeMs : Option Int
  isUp : Bool
deriving DecidableEq, Repr

/-- Outcome of `client.Do` inside `Checker.probe`: either a completed
HTTP response with a status code, or a non-nil error (any transport
error, DNS failure, TLS failure, or timeout). -/
inductive HttpOutcome where
  | response (status : Int)
  | transportError
deriving DecidableEq, Repr

/-- Environment of one worker tick: what each fallible call performed by
`Checker.probe` returns on this tick.  `buildReqOk` is whether
`http.NewRequestWithContext` succeeds, `outcome` is what `client.Do`
returns, `elapsedMs` is the measured wall-clock elapsed time of the
attempt in milliseconds, and the three `...Ok` flags are whether the
corresponding store calls return a nil error. -/
structure TickEnv where
  buildReqOk : Bool
  outcome : HttpOutcome
  elapsedMs : Int
  recordCheckOk : Bool
  getOk : Bool
  updateStateOk : Bool
deriving DecidableEq, Repr

/-- Contents of the store visible to one worker: the row of the probed
monitor (none when the row is absent) and the append-only list of its
check records. -/
structure StoreState where
  monitor : Option Monitor
  checks : List Check
deriving DecidableEq, Repr

/-- One collaborator operation performed during a tick, in program
order.  `updateState` carries the state and failure count as one value
because store.go writes both columns in a single SQL UPDATE statement.
`notify` stands for a call to `Alerter.Notify`; it is part of the
operation vocabulary so that theorems can speak about how many
notifications a tick issues. -/
inductive StoreOp where
  | recordCheck (c : Check)
  | get
  | updateState (state : String) (failures : Int)
  | notify (monitorID : Int)
deriving DecidableEq, Repr

/-- Boolean recogniser for `StoreOp.updateState` operations. -/
def StoreOp.isUpdate : StoreOp → Bool
  | .updateState _ _ => true
  | _ => false

/-- Boolean recogniser for `StoreOp.notify` operations. -/
def StoreOp.isNotify : StoreOp → Bool
  | .notify _ => true
  | _ => false

/-- Construction of the `Check` record in `Checker.probe` (checker.go
lines 158-172): the response time is always populated with the elapsed
milliseconds; on a completed response the status code is stored and
is-up is the status being in [200, 400); on a transport error the
status code stays nil and is-up stays false. -/
def mkCheck (monitorID : Int) (outcome : HttpOutcome) (elapsedMs : Int) : Check :=
  match outcome with
  | .response code =>
      { monitorID := monitorID
        statusCode := some code
        responseTimeMs := some elapsedMs
        isUp := decide (200 ≤ code ∧ code < 400) }
  | .transportError =>
      { monitorID := monitorID
        statusCode := none
        responseTimeMs := some elapsedMs
        isUp := false }

/-- State-transition decision inside `Checker.updateState` (checker.go
lines 188-202), the pure StateTracker function of the spec: success
resets to ("up", 0); failure increments the counter, flipping the state
to "down" at the threshold and holding the current state below it. -/
def next (currentState : String) (currentFailures : Int) (isUp : Bool) : String × Int :=
  if isUp then
    ("up", 0)
  else
    let failures := currentFailures + 1
    if failureThreshold ≤ failures then
      ("down", failures)
    else
      (currentState, failures)

/-- One full worker tick, `Checker.probe` followed by
`Checker.updateState` (checker.go lines 140-207).  Returns the store
contents after the tick and the list of collaborator operations issued.
Control flow from the source: a request-build failure only logs and
returns; a `RecordCheck` failure logs and returns before any state
read; a failed or empty `Store.Get` returns before any write; a failed
`Store.UpdateState` only logs.  The source contains no call to
`Alerter.Notify`, so no `StoreOp.notify` operation is ever issued. -/
def probe (monitorID : Int) (env : TickEnv) (s : StoreState) : StoreState × List StoreOp :=
  if env.buildReqOk = false then
    (s, [])
  else
    let check := mkCheck monitorID env.outcome env.elapsedMs
    if env.recordCheckOk = false then
      (s, [.recordCheck check])
    else
      let s1 : StoreState := { s with checks := s.checks ++ [check] }
      if env.getOk = false then
        (s1, [.recordCheck check, .get])
      else
        match s1.monitor with
        | none => (s1, [.recordCheck check, .get])
        | some m =>
            let r := next m.state m.consecutiveFailures check.isUp
            if env.updateStateOk then
              ({ s1 with monitor := some { state := r.1, consecutiveFailures := r.2 } },
               [.recordCheck check, .get, .updateState r.1 r.2])
            else
              (s1, [.recordCheck check, .get, .updateState r.1 r.2])

/-- Iterated worker ticks: the store contents after running the loop
body once per environment in the list. -/
def runTicks (monitorID : Int) (envs : List TickEnv) (s : StoreState) : StoreState :=
  envs.foldl (fun st e => (probe monitorID e st).1) s

/-- Helper: the operation list of a tick is one of four shapes, read off
the four exit points of `Checker.probe` / `Checker.updateState`. -/
theorem probe_ops_cases (monitorID : Int) (env : TickEnv) (s : StoreState) :
    (probe monitorID env s).2 = []
    ∨ (probe monitorID env s).2 =
        [.recordCheck (mkCheck monitorID env.outcome env.elapsedMs)]
    ∨ (probe monitorID env s).2 =
        [.recordCheck (mkCheck monitorID env.outcome env.elapsedMs), .get]
    ∨ ∃ m : Monitor, s.monitor = some m ∧
        (probe monitorID env s).2 =
          [.recordCheck (mkCheck monitorID env.outcome env.elapsedMs), .get,
           .updateState
             (next m.state m.consecutiveFailures
               (mkCheck monitorID env.outcome env.elapsedMs).isUp).1
             (next m.state m.consecutiveFailures
               (mkCheck monitorID env.outcome env.elapsedMs).isUp).2] := by
  by_cases hb : env.buildReqOk = false
  · left; simp [probe, hb]
  · by_cases hr : env.recordCheckOk = false
    · right; left; simp [probe, hb, hr]
    · by_cases hg : env.getOk = false
      · right; right; left; simp [probe, hb, hr, hg]
      · cases hm : s.monitor with
        | none => right; right; left; simp [probe, hb, hr, hg, hm]
        | some m =>
            right; right; right
            refine ⟨m, rfl, ?_⟩
            by_cases hu : env.updateStateOk <;>
              simp [probe, hb, hr, hg, hm, hu]

/-- Helper: whenever the pair computed by the state-transition decision
carries a failure count at or above the threshold, its state component
is "down". -/
theorem next_down_of_threshold (s : String) (f : Int) (u : Bool)
    (h : failureThreshold ≤ (next s f u).2) : (next s f u).1 = "down" := by
  cases u with
  | false =>
      by_cases hth : failureThreshold ≤ f + 1
      · simp [next, hth]
      · simp [next, hth] at h
  | true =>
      simp [next, failureThreshold] at h

/-- C3: the StateTracker decision function maps any success to
("up", 0); any failure increments the failure count by one, flips the
state to "down" at or above the threshold of 3, and holds the current
state below it; in particular a never-probed monitor in
("unknown", 0) maps its first failing probe to ("unknown", 1). -/
theorem next_spec (s : String) (f : Int) (_hf : 0 ≤ f) :
    next s f true = ("up", 0)
    ∧ (next s f false).2 = f + 1
    ∧ (failureThreshold ≤ f + 1 → (next s f false).1 = "down")
    ∧ (f + 1 < failureThreshold → (next s f false).1 = s)
    ∧ next "unknown" 0 false = ("unknown", 1) := by
  refine ⟨rfl, ?_, ?_, ?_, by decide⟩
  · by_cases hth : failureThreshold ≤ f + 1 <;> simp [next, hth]
  · intro hth; simp [next, hth]
  · intro hth
    have hth' : ¬ failureThreshold ≤ f + 1 := by omega
    simp [next, hth']

/-- Witness for `next_spec` at state "up" and failure count 2. -/
theorem next_spec_witness :
    next "up" 2 true = ("up", 0)
    ∧ (next "up" 2 false).2 = 3
    ∧ (failureThreshold ≤ 2 + 1 → (next "up" 2 false).1 = "down")
    ∧ (2 + 1 < failureThreshold → (next "up" 2 false).1 = "up")
    ∧ next "unknown" 0 false = ("unknown", 1) :=
  next_spec "up" 2 (by decide)

/-- C4: the check record a tick hands to `Store.RecordCheck` is exactly
the one built from the outcome of `client.Do` and the elapsed time, and
that record is classified up exactly when a response with status code
in [200, 400) was received; a transport error or timeout leaves the
status code absent, is-up false, and the response time populated with
the elapsed wall-clock milliseconds of the attempt. -/
theorem probe_check_classification (monitorID : Int) (outcome : HttpOutcome) (ms : Int) :
    ((mkCheck monitorID outcome ms).isUp = true ↔
        ∃ code, outcome = HttpOutcome.response code ∧ 200 ≤ code ∧ code < 400)
    ∧ (mkCheck monitorID outcome ms).responseTimeMs = some ms
    ∧ (outcome = HttpOutcome.transportError →
        (mkCheck monitorID outcome ms).isUp = false
        ∧ (mkCheck monitorID outcome ms).statusCode = none)
    ∧ ∀ (env : TickEnv) (s : StoreState) (c : Check),
        StoreOp.recordCheck c ∈ (probe monitorID env s).2 →
        c = mkCheck monitorID env.outcome env.elapsedMs := by
  refine ⟨?_, ?_, ?_, ?_⟩
  · cases outcome with
    | response code => simp [mkCheck, and_assoc]
    | transportError => simp [mkCheck]
  · cases outcome <;> simp [mkCheck]
  · intro h; subst h; simp [mkCheck]
  · intro env s c hc
    rcases probe_ops_cases monitorID env s with h | h | h | ⟨m, _, h⟩ <;>
      rw [h] at hc <;> simp at hc <;> exact hc

/-- Witness for `probe_check_classification`: a transport error probe
on monitor 7 measured at 42 ms, and the record of a concrete tick. -/
theorem probe_check_classification_witness :
    ((mkCheck 7 HttpOutcome.transportError 42).isUp = true ↔
        ∃ code, HttpOutcome.transportError = HttpOutcome.response code
          ∧ 200 ≤ code ∧ code < 400)
    ∧ (mkCheck 7 HttpOutcome.transportError 42).responseTimeMs = some 42
    ∧ (HttpOutcome.transportError = HttpOutcome.transportError →
        (mkCheck 7 HttpOutcome.transportError 42).isUp = false
        ∧ (mkCheck 7 HttpOutcome.transportError 42).statusCode = none)
    ∧ ∀ (env : TickEnv) (s : StoreState) (c : Check),
        StoreOp.recordCheck c ∈ (probe 7 env s).2 →
        c = mkCheck 7 env.outcome env.elapsedMs :=
  probe_check_classification 7 HttpOutcome.transportError 42

/-- C5: every (state, failures) pair a tick passes to
`Store.UpdateState` travels as one value (the source writes both
columns in a single SQL UPDATE), a tick issues at most one such write,
and no written pair combines a failure count at or above the threshold
with a state other than "down". -/
theorem updateState_pair_invariant (monitorID : Int) (env : TickEnv) (s : StoreState) :
    (∀ st f, StoreOp.updateState st f ∈ (probe monitorID env s).2 →
        failureThreshold ≤ f → st = "down")
    ∧ (probe monitorID env s).2.countP StoreOp.isUpdate ≤ 1 := by
  rcases probe_ops_cases monitorID env s with h | h | h | ⟨m, _, h⟩ <;> rw [h]
  · simp
  · simp [List.countP_cons, StoreOp.isUpdate]
  · simp [List.countP_cons, StoreOp.isUpdate]
  · constructor
    · intro st f hmem hth
      simp at hmem
      rcases hmem with ⟨hst, hf⟩
      subst hst; subst hf
      exact next_down_of_threshold _ _ _ hth
    · simp [List.countP_cons, StoreOp.isUpdate]

/-- Witness for `updateState_pair_invariant`: the down-transition tick
of a monitor previously "up" with 2 failures writes ("down", 3). -/
theorem updateState_pair_invariant_witness :
    (probe 1 ⟨true, HttpOutcome.transportError, 120, true, true, true⟩
        ⟨some ⟨"up", 2⟩, []⟩).2.countP StoreOp.isUpdate ≤ 1
    ∧ "down" = "down" := by
  refine ⟨(updateState_pair_invariant 1
    ⟨true, HttpOutcome.transportError, 120, true, true, true⟩
    ⟨some ⟨"up", 2⟩, []⟩).2, ?_⟩
  exact (updateState_pair_invariant 1
    ⟨true, HttpOutcome.transportError, 120, true, true, true⟩
    ⟨some ⟨"up", 2⟩, []⟩).1 "down" 3 (by decide) (by decide)

/-- C7: a tick whose `Store.RecordCheck` call fails leaves the store
exactly as it was, performs the failed insert as its only collaborator
operation (no state read, no `Store.UpdateState` write, no retry), and
the loop goes on to run the remaining ticks as if this tick had not
happened. -/
theorem recordCheck_failure_abandons_tick (monitorID : Int) (env : TickEnv)
    (s : StoreState) (hb : env.buildReqOk = true) (hr : env.recordCheckOk = false) :
    (probe monitorID env s).1 = s
    ∧ (probe monitorID env s).2 =
        [.recordCheck (mkCheck monitorID env.outcome env.elapsedMs)]
    ∧ ∀ envs : List TickEnv,
        runTicks monitorID (env :: envs) s = runTicks monitorID envs s := by
  have h1 : probe monitorID env s =
      (s, [.recordCheck (mkCheck monitorID env.outcome env.elapsedMs)]) := by
    simp [probe, hb, hr]
  refine ⟨by rw [h1], by rw [h1], ?_⟩
  intro envs
  show List.foldl _ _ (env :: envs) = _
  rw [List.foldl_cons, h1]
  rfl

/-- Witness for `recordCheck_failure_abandons_tick`: a concrete failed
insert on monitor 1 leaves the monitor row untouched. -/
theorem recordCheck_failure_abandons_tick_witness :
    (probe 1 ⟨true, HttpOutcome.response 200, 30, false, true, true⟩
        ⟨some ⟨"up", 0⟩, []⟩).1 = ⟨some ⟨"up", 0⟩, []⟩
    ∧ (probe 1 ⟨true, HttpOutcome.response 200, 30, false, true, true⟩
        ⟨some ⟨"up", 0⟩, []⟩).2 =
        [.recordCheck (mkCheck 1 (HttpOutcome.response 200) 30)]
    ∧ ∀ envs : List TickEnv,
        runTicks 1 (⟨true, HttpOutcome.response 200, 30, false, true, true⟩ :: envs)
            ⟨some ⟨"up", 0⟩, []⟩ =
          runTicks 1 envs ⟨some ⟨"up", 0⟩, []⟩ :=
  recordCheck_failure_abandons_tick 1
    ⟨true, HttpOutcome.response 200, 30, false, true, true⟩
    ⟨some ⟨"up", 0⟩, []⟩ rfl rfl

/-- C10: a tick whose HTTP request cannot be built performs no
collaborator operation at all — no check record, no state read or
write — and any run consisting only of such ticks leaves the store,
hence the monitor state and failure count, unchanged. -/
theorem buildRequest_failure_skips_tick (monitorID : Int) (env : TickEnv)
    (s : StoreState) (hb : env.buildReqOk = false) :
    probe monitorID env s = (s, [])
    ∧ ∀ envs : List TickEnv, (∀ e ∈ envs, e.buildReqOk = false) →
        runTicks monitorID envs s = s := by
  constructor
  · simp [probe, hb]
  · intro envs h
    induction envs with
    | nil => rfl
    | cons e rest ih =>
        have he : e.buildReqOk = false := h e (by simp)
        have hstep : (probe monitorID e s).1 = s := by simp [probe, he]
        show List.foldl _ _ (e :: rest) = _
        rw [List.foldl_cons, hstep]
        exact ih fun x hx => h x (by simp [hx])

/-- Witness for `buildRequest_failure_skips_tick`: two consecutive
ticks of a monitor with an unbuildable request URL change nothing. -/
theorem buildRequest_failure_skips_tick_witness :
    probe 1 ⟨false, HttpOutcome.transportError, 0, true, true, true⟩
        ⟨some ⟨"unknown", 0⟩, []⟩ = (⟨some ⟨"unknown", 0⟩, []⟩, [])
    ∧ runTicks 1
        [⟨false, HttpOutcome.transportError, 0, true, true, true⟩,
         ⟨false, HttpOutcome.transportError, 0, true, true, true⟩]
        ⟨some ⟨"unknown", 0⟩, []⟩ = ⟨some ⟨"unknown", 0⟩, []⟩ := by
  have h := buildRequest_failure_skips_tick 1
    ⟨false, HttpOutcome.transportError, 0, true, true, true⟩
    ⟨some ⟨"unknown", 0⟩, []⟩ rfl
  exact ⟨h.1, h.2 _ (by intro e he; simp at he; rw [he])⟩

/-- C1: on the tick that transitions a monitor from "up" with 2
failures to "down" with 3 failures — the down-transition edge — the
worker issues the atomic ("down", 3) state write but zero calls to
`Alerter.Notify`: nothing in checker.go invokes the alerter (the
`Checker` has no alerter field and the repository never constructs
one), although the claim, the repository README, and the doc comments
of alerter.go all describe exactly one notification on this edge. -/
theorem down_transition_emits_no_notify :
    (probe 1 ⟨true, HttpOutcome.transportError, 120, true, true, true⟩
        ⟨some ⟨"up", 2⟩, []⟩).1.monitor = some ⟨"down", 3⟩
    ∧ StoreOp.updateState "down" 3 ∈
        (probe 1 ⟨true, HttpOutcome.transportError, 120, true, true, true⟩
          ⟨some ⟨"up", 2⟩, []⟩).2
    ∧ (probe 1 ⟨true, HttpOutcome.transportError, 120, true, true, true⟩
        ⟨some ⟨"up", 2⟩, []⟩).2.countP StoreOp.isNotify = 0 := by
  decide

/-- Outcome of one `client.Post` delivery attempt inside
`Alerter.post`: either a completed HTTP response carrying a status
code, or a transport error (non-nil error from `client.Post`, which
includes the 10-second client timeout).  The `json.Marshal` of the
payload — four plain strings — cannot fail and is therefore not a
failure source. -/
inductive PostResult where
  | response (status : Int)
  | transportErr
deriving DecidableEq, Repr

/-- Error classification of `Alerter.post` (alerter.go lines 61-73):
`post` returns a non-nil error exactly when `client.Post` does.  On a
received response the body is closed and nil is returned; the status
code is never inspected, so HTTP 500 yields nil. -/
def postErr : PostResult → Bool
  | .response _ => false
  | .transportErr => true

/-- Observable outcome of one execution of `Alerter.Notify`: how many
delivery attempts were made, the sleeps taken between attempts in
seconds, and whether some attempt was accepted by the HTTP client. -/
structure NotifyRun where
  attempts : Nat
  delaysSec : List Nat
  delivered : Bool
deriving DecidableEq, Repr

/-- Control flow of `Alerter.Notify` (alerter.go lines 36-59): an empty
webhook URL is a no-op; otherwise one `post`; on a `post` error, sleep
a fixed 5 seconds and `post` exactly once more; a second error is
logged and dropped.  `first` and `second` are the outcomes the network
produces for the two potential attempts. -/
def Notify (webhookURL : String) (first second : PostResult) : NotifyRun :=
  if webhookURL = "" then
    ⟨0, [], false⟩
  else if postErr first then
    if postErr second then ⟨2, [5], false⟩ else ⟨2, [5], true⟩
  else
    ⟨1, [], true⟩

/-- C2 as stated is false: a webhook endpoint answering the first
attempt with HTTP 500 is not a delivery failure for `Alerter.post` —
`client.Post` hands back the response with a nil error and the status
code is never inspected — so `Notify` makes exactly one attempt and no
retry, where the claim requires a 5-second wait and a second attempt. -/
theorem notify_http500_no_retry :
    Notify "h" (.response 500) (.response 200) = ⟨1, [], true⟩
    ∧ (Notify "h" (.response 500) (.response 200)).attempts ≠ 2 := by
  decide

/-- C2 amended: a delivery attempt fails exactly when the HTTP client
reports a transport error; a response with any status code, HTTP 500
included, counts as delivered and triggers no retry.  With a configured
webhook URL, a transport failure of the first attempt is followed by a
single fixed 5-second wait and exactly one retry, a second failure is
dropped, and no execution makes more than two delivery attempts. -/
theorem notify_retry_policy (url : String) (first second : PostResult) :
    (Notify url first second).attempts ≤ 2
    ∧ (url = "" → Notify url first second = ⟨0, [], false⟩)
    ∧ (url ≠ "" → postErr first = true →
        (Notify url first second).attempts = 2
        ∧ (Notify url first second).delaysSec = [5]
        ∧ (Notify url first second).delivered = !postErr second)
    ∧ (url ≠ "" → postErr first = false →
        Notify url first second = ⟨1, [], true⟩)
    ∧ postErr (.response 500) = false := by
  refine ⟨?_, ?_, ?_, ?_, rfl⟩
  · by_cases hu : url = ""
    · simp [Notify, hu]
    · by_cases h1 : postErr first
      · by_cases h2 : postErr second <;> simp [Notify, hu, h1, h2]
      · simp [Notify, hu, h1]
  · intro hu; simp [Notify, hu]
  · intro hu h1
    by_cases h2 : postErr second <;> simp [Notify, hu, h1, h2]
  · intro hu h1; simp [Notify, hu, h1]

/-- Witness for `notify_retry_policy`: a transport error on the first
attempt against a configured URL, answered by HTTP 200 on the retry. -/
theorem notify_retry_policy_witness :
    (Notify "h" PostResult.transportErr (PostResult.response 200)).attempts = 2
    ∧ (Notify "h" PostResult.transportErr (PostResult.response 200)).delaysSec = [5]
    ∧ (Notify "h" PostResult.transportErr (PostResult.response 200)).delivered = true := by
  have h := (notify_retry_policy "h" PostResult.transportErr
    (PostResult.response 200)).2.2.1 (by decide) (by decide)
  exact ⟨h.1, h.2.1, by rw [h.2.2]; rfl⟩

/-- Redirect decision of the probe HTTP client (checker.go lines
143-148): given the number of requests already made (the length of the
`via` slice), true means the source answers `http.ErrUseLastResponse`,
so the response in hand becomes the final result without error; false
means the redirect is followed. -/
def checkRedirectUseLast (viaLen : Nat) : Bool := decide (10 ≤ viaLen)

/-- Model of the redirect-following loop of net/http `Client.Do` under
the probe CheckRedirect policy.  `server n = true` means the n-th
response received is a redirect.  `made` counts requests already made,
so the response in hand is response number `made`; the result is the
number of the response handed back as the final one.  Go calls
CheckRedirect with `via` holding the requests already made before
issuing the next request.  Under this policy the loop issues at most
10 requests, so the fuel of 10 supplied by `clientDo` is never
exhausted before one of the two exits fires. -/
def clientDoAux (server : Nat → Bool) : Nat → Nat → Nat
  | made, 0 => made
  | made, fuel + 1 =>
      if server made = false then made
      else if checkRedirectUseLast made then made
      else clientDoAux server (made + 1) fuel

/-- Final response number of one probe request chain; the initial
request is request 1 and its response is response 1. -/
def clientDo (server : Nat → Bool) : Nat := clientDoAux server 1 10

/-- Helper: against a chain of redirects reaching response 10, the loop
stops at response 10. -/
theorem clientDoAux_all_redirect (server : Nat → Bool) :
    ∀ (fuel made : Nat), made ≤ 10 → 10 ≤ made + fuel →
      (∀ i, made ≤ i → i ≤ 10 → server i = true) →
      clientDoAux server made fuel = 10 := by
  intro fuel
  induction fuel with
  | zero =>
      intro made h1 h2 _
      have hm : made = 10 := by omega
      simp [clientDoAux, hm]
  | succ fuel ih =>
      intro made h1 h2 hs
      have hsm : server made = true := hs made le_rfl h1
      by_cases h10 : made = 10
      · subst h10
        simp [clientDoAux, hsm, checkRedirectUseLast]
      · have hcap : checkRedirectUseLast made = false := by
          simp only [checkRedirectUseLast, decide_eq_false_iff_not]
          omega
        simp only [clientDoAux, hsm, hcap, Bool.true_eq_false, if_false]
        exact ih (made + 1) (by omega) (by omega)
          (fun i hi1 hi2 => hs i (by omega) hi2)

/-- Helper: a chain of redirects through response n, with n at most 9,
followed by a non-redirect response n + 1, ends at response n + 1. -/
theorem clientDoAux_chain (server : Nat → Bool) :
    ∀ (fuel made n : Nat), made ≤ n + 1 → n + 1 ≤ made + fuel → n ≤ 9 →
      (∀ i, made ≤ i → i ≤ n → server i = true) →
      server (n + 1) = false →
      clientDoAux server made fuel = n + 1 := by
  intro fuel
  induction fuel with
  | zero =>
      intro made n h1 h2 _ _ _
      have hm : made = n + 1 := by omega
      simp [clientDoAux, hm]
  | succ fuel ih =>
      intro made n h1 h2 h3 hs hf
      by_cases hmn : made = n + 1
      · subst hmn
        simp [clientDoAux, hf]
      · have hle : made ≤ n := by omega
        have hsm : server made = true := hs made le_rfl hle
        have hcap : checkRedirectUseLast made = false := by
          simp only [checkRedirectUseLast, decide_eq_false_iff_not]
          omega
        simp only [clientDoAux, hsm, hcap, Bool.true_eq_false, if_false]
        exact ih (made + 1) n (by omega) (by omega) h3
          (fun i hi1 hi2 => hs i (by omega) hi2) hf

/-- C6 as stated is false: against a server answering every request
with a redirect, the probe client returns response 10 — the 10th
redirect response, reached after following 9 redirects — as the final
result, not the 11th: CheckRedirect answers `ErrUseLastResponse` as
soon as 10 requests have been made. -/
theorem redirect_cap_counterexample :
    clientDo (fun _ => true) = 10 ∧ (10 : Nat) ≠ 11 := by
  decide

/-- C6 amended: the probe client follows at most 9 redirects.  A chain
of redirect responses reaching response 10 ends with the 10th redirect
response returned as the final response — not followed further, and
not an error, since the policy answers `ErrUseLastResponse` rather
than a failure — while any chain of n ≤ 9 redirects followed by a
non-redirect response ends normally with response n + 1. -/
theorem redirect_cap (server : Nat → Bool) :
    ((∀ i, 1 ≤ i → i ≤ 10 → server i = true) → clientDo server = 10)
    ∧ ∀ n, n ≤ 9 → (∀ i, 1 ≤ i → i ≤ n → server i = true) →
        server (n + 1) = false → clientDo server = n + 1 := by
  constructor
  · intro hs
    exact clientDoAux_all_redirect server 10 1 (by omega) (by omega)
      (fun i hi1 hi2 => hs i hi1 hi2)
  · intro n hn hs hf
    exact clientDoAux_chain server 10 1 n (by omega) (by omega) hn
      (fun i hi1 hi2 => hs i hi1 hi2) hf

/-- Witness for `redirect_cap`: a chain of 3 redirects followed by a
final response ends at response 4. -/
theorem redirect_cap_witness :
    clientDo (fun i => decide (i ≤ 3)) = 4 :=
  (redirect_cap (fun i => decide (i ≤ 3))).2 3 (by omega)
    (fun i _ hi2 => decide_eq_true (by omega)) (by decide)

/-- Identity of one worker goroutine spawned by `Checker.startWorker`:
the monitor id it probes and a token standing for the
`context.CancelFunc` created for it. -/
structure LoopInfo where
  mid : Int
  token : Nat
deriving DecidableEq, Repr

/-- Lifecycle state of the `Checker` (checker.go): the id-to-cancel
registry (the `c.cancel` map, mutated only under `c.mu`), the worker
goroutines spawned so far, the set of cancelled context tokens, the
set of tokens whose goroutine has returned (and whose `wg.Done` has
run), and a counter producing fresh tokens. -/
structure CheckerSt where
  registry : List (Int × Nat)
  loops : List LoopInfo
  cancelledToks : List Nat
  exitedToks : List Nat
  nextToken : Nat
deriving DecidableEq, Repr

/-- Checker state right after `NewChecker`: empty registry, no workers. -/
def CheckerSt.init : CheckerSt := ⟨[], [], [], [], 0⟩

/-- Map read on the cancel registry. -/
def regGet (r : List (Int × Nat)) (id : Int) : Option Nat :=
  (r.find? (fun p => decide (p.1 = id))).map (fun p => p.2)

/-- Map assignment on the cancel registry: replaces any entry for the
id, as Go map assignment does. -/
def regSet (r : List (Int × Nat)) (id : Int) (tok : Nat) : List (Int × Nat) :=
  (r.filter (fun p => ! decide (p.1 = id))) ++ [(id, tok)]

/-- Map deletion on the cancel registry. -/
def regDel (r : List (Int × Nat)) (id : Int) : List (Int × Nat) :=
  r.filter (fun p => ! decide (p.1 = id))

/-- `Checker.startWorker` (checker.go lines 91-126): creates a fresh
cancellable context, stores its cancel function in the registry under
the monitor id — overwriting, without invoking, whatever cancel
function was registered there — and spawns one new worker goroutine. -/
def startWorker (id : Int) (s : CheckerSt) : CheckerSt :=
  { registry := regSet s.registry id s.nextToken
    loops := s.loops ++ [⟨id, s.nextToken⟩]
    cancelledToks := s.cancelledToks
    exitedToks := s.exitedToks
    nextToken := s.nextToken + 1 }

/-- `Checker.stopWorker` (checker.go lines 128-138): removes the
registry entry for the id, if any, and invokes its cancel function. -/
def stopWorker (id : Int) (s : CheckerSt) : CheckerSt :=
  match regGet s.registry id with
  | none => s
  | some tok =>
      { s with
          registry := regDel s.registry id
          cancelledToks := tok :: s.cancelledToks }

/-- `Checker.Add` (checker.go lines 62-64): unconditionally starts a
worker for the monitor. -/
def add (id : Int) (s : CheckerSt) : CheckerSt := startWorker id s

/-- Cancellation phase of `Checker.Stop` (checker.go lines 78-88):
collects the registered ids under the lock, then stops each.  The
subsequent `wg.Wait` barrier is modelled by the `allExited` predicate
below. -/
def stopCancelPhase (s : CheckerSt) : CheckerSt :=
  (s.registry.map Prod.fst).foldl (fun st id => stopWorker id st) s

/-- Worker goroutines of the state that have not yet returned. -/
def runningLoops (s : CheckerSt) : List LoopInfo :=
  s.loops.filter (fun l => ! decide (l.token ∈ s.exitedToks))

/-- Number of running worker goroutines probing the given monitor id. -/
def runningFor (id : Int) (s : CheckerSt) : Nat :=
  (runningLoops s).countP (fun l => decide (l.mid = id))

/-- Condition under which the `wg.Wait` inside `Checker.Stop` unblocks
and `Stop` returns: every worker goroutine has returned (each worker
runs `wg.Add(1)` before its goroutine starts, so the WaitGroup covers
them all). -/
def allExited (s : CheckerSt) : Prop := ∀ l ∈ s.loops, l.token ∈ s.exitedToks

/-- Worker-side activity after a given checker state, recording the
monitor ids for which a Check record gets written.  A worker whose
goroutine has not returned may run a probe tick and write a Check (the
source records a check even when cancellation lands mid-request, since
the failed `client.Do` result is recorded before the next select); a
worker whose context has been cancelled and whose goroutine has not
returned may observe the cancellation at a select point and return. -/
inductive TickSteps : CheckerSt → List Int → CheckerSt → Prop where
  | refl (s : CheckerSt) : TickSteps s [] s
  | tick {s : CheckerSt} {ids : List Int} {t : CheckerSt} (l : LoopInfo)
      (hl : l ∈ s.loops) (hrun : l.token ∉ s.exitedToks)
      (h : TickSteps s ids t) : TickSteps s (l.mid :: ids) t
  | exitStep {s : CheckerSt} {ids : List Int} {t : CheckerSt} (l : LoopInfo)
      (hl : l ∈ s.loops) (hc : l.token ∈ s.cancelledToks)
      (hrun : l.token ∉ s.exitedToks)
      (h : TickSteps { s with exitedToks := l.token :: s.exitedToks } ids t) :
      TickSteps s ids t

/-- C8 as stated is false: calling `Add` for a monitor id whose loop is
already registered leaves two concurrently running loops for that id —
`startWorker` overwrites the registry entry without cancelling the old
context, so the first loop keeps running and is no longer reachable
from the registry. -/
theorem add_twice_leaks_loop :
    runningFor 1 (add 1 (add 1 CheckerSt.init)) = 2
    ∧ ¬ runningFor 1 (add 1 (add 1 CheckerSt.init)) ≤ 1 := by
  decide

/-- Helper: a token never returned by a worker does not defeat the
running filter of a freshly started loop. -/
theorem runningFor_add (id : Int) (s : CheckerSt)
    (hfresh : s.nextToken ∉ s.exitedToks) :
    runningFor id (add id s) = runningFor id s + 1 := by
  unfold runningFor runningLoops add startWorker
  simp [List.filter_append, List.countP_append, hfresh]

/-- Helper: registry lookup on a head entry whose key matches. -/
theorem regGet_cons_eq {p : Int × Nat} {rest : List (Int × Nat)} {id : Int}
    (h : p.1 = id) : regGet (p :: rest) id = some p.2 := by
  unfold regGet
  rw [List.find?_cons]
  simp [h]

/-- Helper: registry lookup skips a head entry whose key differs. -/
theorem regGet_cons_ne {p : Int × Nat} {rest : List (Int × Nat)} {id : Int}
    (h : ¬ p.1 = id) : regGet (p :: rest) id = regGet rest id := by
  unfold regGet
  rw [List.find?_cons]
  simp [h]

/-- Helper: registry deletion on a cons. -/
theorem regDel_cons (p : Int × Nat) (rest : List (Int × Nat)) (i : Int) :
    regDel (p :: rest) i =
      if p.1 = i then regDel rest i else p :: regDel rest i := by
  unfold regDel
  rw [List.filter_cons]
  by_cases h : p.1 = i <;> simp [h]

/-- Helper: looking up the id of the single trailing entry, when no
earlier entry carries that key. -/
theorem regGet_append_single (l : List (Int × Nat)) (id : Int) (tok : Nat)
    (h : ∀ p ∈ l, ¬ p.1 = id) :
    regGet (l ++ [(id, tok)]) id = some tok := by
  induction l with
  | nil => unfold regGet; simp
  | cons p rest ih =>
      rw [List.cons_append, regGet_cons_ne (h p (by simp))]
      exact ih fun q hq => h q (by simp [hq])

/-- Helper: the registry of the state after `regSet` answers the id
with the token just stored. -/
theorem regGet_regSet (r : List (Int × Nat)) (id : Int) (tok : Nat) :
    regGet (regSet r id tok) id = some tok := by
  unfold regSet
  apply regGet_append_single
  intro p hp
  have hm := List.of_mem_filter hp
  simpa using hm

/-- C8 amended: `Add` starts exactly one new polling loop — the
running-loop count for the id grows by exactly one and the fresh
cancel function is registered under the id — so when no loop for the
id is running, exactly one results; but when one already runs, `Add`
leaves two running loops for the id: the overwritten loop keeps
running, leaked.  The freshness hypothesis, an invariant of every
reachable checker state, says the next token has not been used by an
already-returned worker. -/
theorem add_starts_exactly_one_loop (id : Int) (s : CheckerSt)
    (hfresh : s.nextToken ∉ s.exitedToks) :
    runningFor id (add id s) = runningFor id s + 1
    ∧ regGet (add id s).registry id = some s.nextToken
    ∧ (runningFor id s = 0 → runningFor id (add id s) = 1)
    ∧ (1 ≤ runningFor id s → 2 ≤ runningFor id (add id s)) := by
  have h1 := runningFor_add id s hfresh
  refine ⟨h1, ?_, ?_, ?_⟩
  · exact regGet_regSet s.registry id s.nextToken
  · intro h0; omega
  · intro h0; omega

/-- Witness for `add_starts_exactly_one_loop`: adding monitor 1 to the
fresh checker state. -/
theorem add_starts_exactly_one_loop_witness :
    runningFor 1 (add 1 CheckerSt.init) = runningFor 1 CheckerSt.init + 1
    ∧ regGet (add 1 CheckerSt.init).registry 1 = some CheckerSt.init.nextToken
    ∧ (runningFor 1 CheckerSt.init = 0 → runningFor 1 (add 1 CheckerSt.init) = 1)
    ∧ (1 ≤ runningFor 1 CheckerSt.init → 2 ≤ runningFor 1 (add 1 CheckerSt.init)) :=
  add_starts_exactly_one_loop 1 CheckerSt.init (by decide)

/-- Helper: `stopWorker` never un-cancels a token. -/
theorem stopWorker_cancelled_mono {tok : Nat} {s : CheckerSt} (id : Int)
    (h : tok ∈ s.cancelledToks) : tok ∈ (stopWorker id s).cancelledToks := by
  unfold stopWorker
  split
  · exact h
  · exact List.mem_cons_of_mem _ h

/-- Helper: folding `stopWorker` over any id list keeps every
already-cancelled token cancelled. -/
theorem foldStop_cancelled_mono (ids : List Int) :
    ∀ (s : CheckerSt) (tok : Nat), tok ∈ s.cancelledToks →
      tok ∈ (ids.foldl (fun st i => stopWorker i st) s).cancelledToks := by
  induction ids with
  | nil => intro s tok h; exact h
  | cons i rest ih =>
      intro s tok h
      exact ih _ tok (stopWorker_cancelled_mono i h)

/-- Helper: deleting one id from the registry leaves lookups of other
ids unchanged. -/
theorem regGet_regDel_ne (r : List (Int × Nat)) (i id : Int) (hne : id ≠ i) :
    regGet (regDel r i) id = regGet r id := by
  induction r with
  | nil => rfl
  | cons p rest ih =>
      rw [regDel_cons]
      by_cases hp : p.1 = i
      · have hpid : ¬ p.1 = id := by rw [hp]; exact fun h => hne h.symm
        rw [if_pos hp, ih, regGet_cons_ne hpid]
      · rw [if_neg hp]
        by_cases hpid : p.1 = id
        · rw [regGet_cons_eq hpid, regGet_cons_eq hpid]
        · rw [regGet_cons_ne hpid, regGet_cons_ne hpid, ih]

/-- Helper: stopping one worker leaves registry lookups of other ids
unchanged. -/
theorem regGet_stopWorker_ne (i id : Int) (s : CheckerSt) (hne : id ≠ i) :
    regGet (stopWorker i s).registry id = regGet s.registry id := by
  unfold stopWorker
  split
  · rfl
  · exact regGet_regDel_ne s.registry i id hne

/-- Helper: stopping a worker whose id maps to a token cancels that
token. -/
theorem stopWorker_registry_cancels (id : Int) (tok : Nat) (s : CheckerSt)
    (h : regGet s.registry id = some tok) :
    tok ∈ (stopWorker id s).cancelledToks := by
  simp [stopWorker, h]

/-- Helper: folding `stopWorker` over a list of ids cancels the token
registered under any id of the list. -/
theorem foldStop_cancels (id : Int) (tok : Nat) :
    ∀ (ids : List Int) (s : CheckerSt), id ∈ ids →
      regGet s.registry id = some tok →
      tok ∈ (ids.foldl (fun st i => stopWorker i st) s).cancelledToks := by
  intro ids
  induction ids with
  | nil => intro s h; exact absurd h (List.not_mem_nil id)
  | cons i rest ih =>
      intro s hmem hreg
      by_cases hi : id = i
      · subst hi
        exact foldStop_cancelled_mono rest _ tok
          (stopWorker_registry_cancels id tok s hreg)
      · have hmem' : id ∈ rest := by
          rcases List.mem_cons.mp hmem with h | h
          · exact absurd h hi
          · exact h
        have hreg' : regGet (stopWorker i s).registry id = some tok := by
          rw [regGet_stopWorker_ne i id s hi]; exact hreg
        exact ih _ hmem' hreg'

/-- Helper: a successful registry lookup means the id is among the
registry keys. -/
theorem regGet_mem_keys (r : List (Int × Nat)) (id : Int) (tok : Nat)
    (h : regGet r id = some tok) : id ∈ r.map Prod.fst := by
  induction r with
  | nil => simp [regGet] at h
  | cons p rest ih =>
      by_cases hp : p.1 = id
      · simp [hp]
      · rw [regGet_cons_ne hp] at h
        exact List.mem_cons_of_mem _ (ih h)

/-- Helper: once every worker goroutine has returned, no further step
writes a Check record: a returned worker takes no steps, and nothing
revives one. -/
theorem ticks_of_allExited :
    ∀ {s : CheckerSt} {ids : List Int} {t : CheckerSt},
      TickSteps s ids t → allExited s → ids = [] := by
  intro s ids t h
  induction h with
  | refl => intro _; rfl
  | tick l hl hrun _ _ => intro hall; exact absurd (hall l hl) hrun
  | exitStep l hl _ hrun _ _ => intro hall; exact absurd (hall l hl) hrun

/-- C9: two facts about `Checker.Stop`.  First, its cancellation phase
invokes the cancel function of every worker whose goroutine has not
returned, provided each such worker is either already cancelled or
still registered under its monitor id — an invariant of every state
the supervisor operations produce as the repository uses them.
Second, `Stop` returns exactly when `wg.Wait` unblocks, that is when
every worker goroutine has returned; in any such state zero running
loops remain, and no continuation of worker activity writes a Check
record for any monitor, however many steps it takes. -/
theorem stop_cancels_and_quiesces (s : CheckerSt) :
    ((∀ l ∈ s.loops, l.token ∉ s.exitedToks →
          l.token ∈ s.cancelledToks ∨ regGet s.registry l.mid = some l.token) →
      ∀ l ∈ s.loops, l.token ∉ s.exitedToks →
        l.token ∈ (stopCancelPhase s).cancelledToks)
    ∧ (allExited s →
        runningLoops s = []
        ∧ ∀ ids t, TickSteps s ids t → ids = []) := by
  constructor
  · intro hinv l hl hrun
    rcases hinv l hl hrun with hc | hreg
    · exact foldStop_cancelled_mono _ s l.token hc
    · exact foldStop_cancels l.mid l.token _ s
        (regGet_mem_keys s.registry l.mid l.token hreg) hreg
  · intro hall
    constructor
    · unfold runningLoops
      rw [List.filter_eq_nil_iff]
      intro l hl
      simp [hall l hl]
    · intro ids t h
      exact ticks_of_allExited h hall

/-- Witness for `stop_cancels_and_quiesces`: a checker with one
registered running worker, whose token the cancel phase cancels, and a
checker whose single worker has returned, where no further step writes
a Check. -/
theorem stop_cancels_and_quiesces_witness :
    (0 : Nat) ∈ (stopCancelPhase ⟨[(1, 0)], [⟨1, 0⟩], [], [], 1⟩).cancelledToks
    ∧ runningLoops ⟨[], [⟨1, 0⟩], [0], [0], 1⟩ = []
    ∧ ∀ ids t, TickSteps ⟨[], [⟨1, 0⟩], [0], [0], 1⟩ ids t → ids = [] := by
  have h1 := (stop_cancels_and_quiesces ⟨[(1, 0)], [⟨1, 0⟩], [], [], 1⟩).1
  have h2 := (stop_cancels_and_quiesces ⟨[], [⟨1, 0⟩], [0], [0], 1⟩).2
    (by unfold allExited; decide)
  exact ⟨h1 (by decide) ⟨1, 0⟩ (by decide) (by decide), h2.1, h2.2⟩

end HealthDashboard
